import Mathlib

/-!
Verification of the LimaCharlie sigma backend
(`tools/sigma/backends/limacharlie.py`): a translator from parsed Sigma
detection rules to LimaCharlie D&R rule documents.

The embedding models Python values flowing through the translator with the
`LC` type (YAML/JSON-like data: `null`, booleans, integers, strings, lists,
insertion-ordered string-keyed dictionaries).  Python `dict` objects are
insertion-ordered, so dictionaries are association lists; `d[k] = v`
replaces in place when `k` is present and appends otherwise (`dictSet`).
Exceptions raised by the backend are modelled with `Except Err`; the
`Err` constructors mirror the Python exception classes
(`NotImplementedError`, `TypeError`, `KeyError`) together with the message
the source builds.

`yaml.safe_dump` / `yaml.safe_load` round-trips inside `generate` and
`generateQuery` are modelled as the identity on the structured value: the
spec places serialization mechanics out of scope and the source
deserializes its own dump immediately.
-/

namespace LimaCharlie

/-- A Python value as it flows through the backend: the payload of the
generated D&R rule structures (YAML-safe data). -/
inductive LC where
  | null
  | bool (b : Bool)
  | int (n : Int)
  | str (s : String)
  | list (xs : List LC)
  | obj (kvs : List (String × LC))

/-- Python `isinstance(v, str)`. -/
def LC.isStr : LC → Bool
  | .str _ => true
  | _ => false

/-- Python `v is None`. -/
def LC.isNull : LC → Bool
  | .null => true
  | _ => false

/-- Python `isinstance(v, dict)`. -/
def LC.isObj : LC → Bool
  | .obj _ => true
  | _ => false

/-- Python ordered-`dict` assignment `d[k] = v`: replace the value in place
when the key is present, append the pair otherwise. -/
def dictSet (kvs : List (String × LC)) (k : String) (v : LC) :
    List (String × LC) :=
  if kvs.any (fun p => p.1 == k) then
    kvs.map (fun p => if p.1 == k then (k, v) else p)
  else kvs ++ [(k, v)]

/-- Python `d.update(new)`: assign every pair of `new` into `d`, in order. -/
def dictUpdate (kvs newKvs : List (String × LC)) : List (String × LC) :=
  newKvs.foldl (fun acc p => dictSet acc p.1 p.2) kvs

mutual

/-- Python `repr` restricted to the values above.  Only the atom cases are
ever reached by the backend (`str()` is applied to scalars only); the
container cases are a faithful-shape approximation of CPython's output
(string escaping inside `repr` of a string is not reproduced). -/
def pyRepr : LC → String
  | .null => "None"
  | .bool true => "True"
  | .bool false => "False"
  | .int n => toString n
  | .str s => "\x27" ++ s ++ "\x27"
  | .list xs => "[" ++ pyReprList xs ++ "]"
  | .obj kvs => "\x7b" ++ pyReprObj kvs ++ "\x7d"

def pyReprList : List LC → String
  | [] => ""
  | [x] => pyRepr x
  | x :: rest => pyRepr x ++ ", " ++ pyReprList rest

def pyReprObj : List (String × LC) → String
  | [] => ""
  | [(k, v)] => "\x27" ++ k ++ "\x27: " ++ pyRepr v
  | (k, v) :: rest => "\x27" ++ k ++ "\x27: " ++ pyRepr v ++ ", " ++ pyReprObj rest

end

/-- Python `str`: identity on strings, `repr` otherwise (for the atoms the
backend can reach this is exact). -/
def pyStr : LC → String
  | .str s => s
  | v => pyRepr v

/-!
## Value Pattern Compiler (`LimaCharlieBackend._valuePatternToLcOp`)

The interior-wildcard branch of the source performs three sequential
`re.sub` passes:
  1. `re.sub('([".^$]|\\\\(?![*?]))', '\\\\\g<1>', val)` — prefix a
     backslash to every `"`, `.`, `^`, `$`, and to every backslash that is
     not immediately followed by `*` or `?`;
  2. `re.sub('\\*', '.*', val)` — replace every `*` with `.*`;
  3. `re.sub('\\?', '.', val)` — replace every `?` with `.`.
-/

/-- Pass 1 of the interior-wildcard translation: the scan of
`re.sub('([".^$]|\\\\(?![*?]))', '\\\\\g<1>', val)` over the characters.
A backslash followed by `*` or `?` is left alone (the negative lookahead
fails) and the scan resumes at the `*`/`?`, which the character class does
not match either. -/
def escWDATP : List Char → List Char
  | [] => []
  | ['\\'] => ['\\', '\\']
  | '\\' :: c :: rest =>
      if c = '*' ∨ c = '?' then '\\' :: c :: escWDATP rest
      else '\\' :: '\\' :: escWDATP (c :: rest)
  | c :: rest =>
      if c = '"' ∨ c = '.' ∨ c = '^' ∨ c = '$' then '\\' :: c :: escWDATP rest
      else c :: escWDATP rest

/-- Pass 2: `re.sub('\\*', '.*', val)` on one character. -/
def starChar (c : Char) : List Char :=
  if c = '*' then ['.', '*'] else [c]

/-- Pass 3: `re.sub('\\?', '.', val)` on one character. -/
def qChar (c : Char) : Char :=
  if c = '?' then '.' else c

/-- The three `re.sub` passes of the interior-wildcard branch, composed. -/
def wildcardTranslate (cs : List Char) : List Char :=
  ((escWDATP cs).flatMap starChar).map qChar

/-- The string case of `_valuePatternToLcOp`: wildcard analysis of a Sigma
string value, returning the LC operator name and the normalized value.
`val[1:-1]` is `(toList.drop 1).dropLast`; `endswith`/`startswith` of `"*"`
are the last/first character tests. -/
def valuePatternToLcOpStr (val : String) : String × String :=
  let cs := val.toList
  if '*' ∈ (cs.drop 1).dropLast then
    ("matches", String.mk (wildcardTranslate cs))
  else if cs.getLast? = some '*' ∧ cs.head? = some '*' then
    ("contains", String.mk ((cs.drop 1).dropLast))
  else if cs.getLast? = some '*' then
    ("starts with", String.mk cs.dropLast)
  else if cs.head? = some '*' then
    ("ends with", String.mk (cs.drop 1))
  else ("is", val)

/-- `LimaCharlieBackend._valuePatternToLcOp(self, val)`, with the
`self._isAllStringValues` flag passed explicitly.  Non-string input returns
`("is", str(val))` under the flag and `("is", val)` otherwise. -/
def valuePatternToLcOp (isAllStringValues : Bool) (val : LC) : String × LC :=
  match val with
  | .str s =>
      let p := valuePatternToLcOpStr s
      (p.1, LC.str p.2)
  | v => ("is", if isAllStringValues then LC.str (pyStr v) else v)

/-!
## Expression tree and mapping registry
-/

/-- A Sigma scalar leaf value (Python `str` or `int`). -/
inductive SigmaValue where
  | str (s : String)
  | int (n : Int)

/-- Embed a scalar into the Python-value model. -/
def lcOfSigmaValue : SigmaValue → LC
  | .str s => LC.str s
  | .int n => LC.int n

/-- The `value` component of a map-item node, covering the `isinstance`
chain of `generateMapItemNode`: scalar (`int`/`str`), list of scalars,
`SigmaRegularExpressionModifier` (carrying its pattern source), any other
`SigmaTypeModifier` (carrying its type name), Python `None`, and any other
type (carrying its type name, for the final `TypeError`). -/
inductive MapValue where
  | scalar (v : SigmaValue)
  | listVal (vs : List SigmaValue)
  | regexMod (pattern : String)
  | typeMod (tyName : String)
  | noneVal
  | otherVal (tyName : String)

/-- The parsed Sigma expression tree handed to the backend by the sigma
parser: And/Or/Not combinators, transparent subexpressions, value lists,
field-against-value map items, and bare value leaves. -/
inductive SigmaNode where
  | and (cs : List SigmaNode)
  | or (cs : List SigmaNode)
  | not (item : SigmaNode)
  | sub (items : SigmaNode)
  | listNode (vs : List SigmaNode)
  | mapItem (fieldname : String) (value : MapValue)
  | value (v : SigmaValue)

/-- The `fieldMappings` member of a registry entry: either a static dict
from generic field name to target path (`None` meaning "ignore this
clause") or a callable computing the path. -/
inductive FieldMappings where
  | table (m : List (String × Option String))
  | func (f : String → String)

/-- The mapping context driving one translation: the four per-call members
the backend stores on `self` (`_fieldMappingInEffect`, `_preCondition`,
`_isAllStringValues`, `_isKeywordsSupported`). -/
structure Ctx where
  fieldMappings : FieldMappings
  preCondition : Option LC
  isAllStringValues : Bool
  isKeywordsSupported : Bool

/-- Exceptions the backend can raise, mirroring the Python exception class
and message. `keyError` is an unguarded `dict[...]` lookup failure,
`typeError` a `TypeError`, `notImplemented` a `NotImplementedError`. -/
inductive Err where
  | notImplemented (msg : String)
  | typeError (msg : String)
  | keyError (key : String)
deriving DecidableEq

/-- The spec's `UnsupportedKeywordSearch` failure as the source raises it. -/
def UnsupportedKeywordSearch : Err :=
  .notImplemented "Full-text keyboard searches not supported."

/-- The spec's `UnsupportedNegation` failure as the source raises it. -/
def UnsupportedNegation : Err :=
  .notImplemented "Not operator not available on non-dict nodes."

/-- The spec's `UnsupportedLogSource` failure as the source raises it. -/
def UnsupportedLogSource (product category service : String) : Err :=
  .notImplemented ("Log source " ++ product ++ "/" ++ category ++ "/" ++
    service ++ " not supported by backend.")

/-- The spec's `UnsupportedField` failure as the source raises it. -/
def UnsupportedField (fieldname : String) : Err :=
  .notImplemented ("Field name " ++ fieldname ++ " not supported by backend.")

/-- The spec's `MalformedSelection` failure as the source raises it. -/
def MalformedSelection : Err :=
  .notImplemented "Selection combination not supported."

/-!
## Node translator
-/

/-- Field-name resolution step of `generateMapItemNode`: dispatch on
callable-vs-dict mapping; a dict miss raises (the bare `except:` turns the
`KeyError` into the `NotImplementedError`). -/
def resolveFieldName (fm : FieldMappings) (fieldname : String) :
    Except Err (Option String) :=
  match fm with
  | .func f => pure (some (f fieldname))
  | .table m =>
      match m.lookup fieldname with
      | some v => pure v
      | none => throw (UnsupportedField fieldname)

/-- `LimaCharlieBackend.generateMapItemNode`, with the node's
`(fieldname, value)` pair passed as two arguments. -/
def generateMapItemNode (ctx : Ctx) (fieldname : String) (value : MapValue) :
    Except Err LC := do
  let mapped ← resolveFieldName ctx.fieldMappings fieldname
  match mapped with
  | none => pure LC.null
  | some path =>
      match value with
      | .scalar v =>
          let p := valuePatternToLcOp ctx.isAllStringValues (lcOfSigmaValue v)
          pure (LC.obj [("op", LC.str p.1), ("path", LC.str path),
            ("value", p.2), ("case sensitive", LC.bool false)])
      | .listVal vs =>
          let subOps := vs.map (fun v =>
            let p := valuePatternToLcOp ctx.isAllStringValues (lcOfSigmaValue v)
            LC.obj [("op", LC.str p.1), ("path", LC.str path),
              ("value", p.2), ("case sensitive", LC.bool false)])
          match subOps with
          | [subOp] => pure subOp
          | _ => pure (LC.obj [("op", LC.str "or"), ("rules", LC.list subOps)])
      | .regexMod pattern =>
          pure (LC.obj [("op", LC.str "matches"), ("path", LC.str path),
            ("re", LC.str pattern)])
      | .typeMod tyName =>
          throw (Err.typeError ("Backend does not support TypeModifier: " ++ tyName))
      | .noneVal =>
          pure (LC.obj [("op", LC.str "exists"), ("not", LC.bool true),
            ("path", LC.str path)])
      | .otherVal tyName =>
          throw (Err.typeError ("Backend does not support map values of type " ++ tyName))

/-- The comprehension `[g for g in generated if g is not None]` shared by
`generateANDNode` and `generateORNode`. -/
def dropNone (generated : List LC) : List LC :=
  generated.filter (fun g => !g.isNull)

/-- The body of `generateANDNode` after the children have been generated:
drop `None` results, collapse to `None` / the single survivor / an `and`
combinator. -/
def combineAnd (generated : List LC) : LC :=
  let filtered := dropNone generated
  match filtered with
  | [] => LC.null
  | [g] => g
  | gs => LC.obj [("op", LC.str "and"), ("rules", LC.list gs)]

/-- The unguarded `self._fieldMappingInEffect["keywords"]` subscript of
`generateORNode`: a dict miss is a raw `KeyError`, and subscripting a
callable mapping is a `TypeError`. -/
def keywordFieldPath : FieldMappings → Except Err LC
  | .table m =>
      match m.lookup "keywords" with
      | some (some p) => pure (LC.str p)
      | some none => pure LC.null
      | none => throw (Err.keyError "keywords")
  | .func _ => throw (Err.typeError "mapping object is not subscriptable")

/-- The body of `generateORNode` after the children have been generated:
drop `None` results; if the first survivor is a raw string, reinterpret the
survivors as a keyword list (raising when `isKeywordsSupported` is false,
otherwise compiling each survivor and wrapping it against the mapping's
`"keywords"` path); collapse to `None` / the single survivor / an `or`
combinator. -/
def combineOr (ctx : Ctx) (generated : List LC) : Except Err LC := do
  let filtered := dropNone generated
  match filtered with
  | [] => pure LC.null
  | f0 :: frest => do
      let filtered2 ←
        if f0.isStr then do
          if !ctx.isKeywordsSupported then
            throw UnsupportedKeywordSearch
          let path ← keywordFieldPath ctx.fieldMappings
          pure ((f0 :: frest).map (fun k =>
            let p := valuePatternToLcOp ctx.isAllStringValues k
            LC.obj [("op", LC.str p.1), ("path", path), ("value", p.2)]))
        else
          pure (f0 :: frest)
      match filtered2 with
      | [g] => pure g
      | gs => pure (LC.obj [("op", LC.str "or"), ("rules", LC.list gs)])

mutual

/-- Modelled from the spec: the recursive dispatcher `generateNode` lives in
the sigma base class (`BaseBackend`), which is not part of this repository;
§4.2 of the spec documents the walk (And / Or / Not / subexpression / list /
map-item / value leaf), each kind delegating to the corresponding
`generate*Node` method of this backend, all of which are in the source and
embedded here. -/
def generateNode (ctx : Ctx) : SigmaNode → Except Err LC
  | .and cs => do
      let generated ← generateNodes ctx cs
      pure (combineAnd generated)
  | .or cs => do
      let generated ← generateNodes ctx cs
      combineOr ctx generated
  | .not item => do
      let generated ← generateNode ctx item
      match generated with
      | LC.null => pure LC.null
      | LC.obj kvs => pure (LC.obj (dictSet kvs "not" (LC.bool true)))
      | _ => throw UnsupportedNegation
  | .sub items => generateNode ctx items
  | .listNode vs => do
      let generated ← generateNodes ctx vs
      pure (LC.list generated)
  | .mapItem fieldname value => generateMapItemNode ctx fieldname value
  | .value v => pure (lcOfSigmaValue v)

/-- Translation of a list of sibling nodes, left to right (the list
comprehensions `[self.generateNode(val) for val in node]`; the first raised
exception aborts the comprehension). -/
def generateNodes (ctx : Ctx) : List SigmaNode → Except Err (List LC)
  | [] => pure []
  | n :: ns => do
      let g ← generateNode ctx n
      let gs ← generateNodes ctx ns
      pure (g :: gs)

end

/-- `LimaCharlieBackend.generateANDNode` applied to the children of an And
node. -/
def generateANDNode (ctx : Ctx) (cs : List SigmaNode) : Except Err LC :=
  generateNode ctx (.and cs)

/-- `LimaCharlieBackend.generateORNode` applied to the children of an Or
node. -/
def generateORNode (ctx : Ctx) (cs : List SigmaNode) : Except Err LC :=
  generateNode ctx (.or cs)

/-- `LimaCharlieBackend.generateNOTNode` applied to the wrapped item. -/
def generateNOTNode (ctx : Ctx) (item : SigmaNode) : Except Err LC :=
  generateNode ctx (.not item)

/-- `LimaCharlieBackend.generateQuery`: translate the parsed search and,
when the active context has a precondition, AND-wrap it in front of the
result (the trailing `yaml.safe_dump` is modelled as the identity). -/
def generateQuery (ctx : Ctx) (parsedSearch : SigmaNode) : Except Err LC := do
  let result ← generateNode ctx parsedSearch
  match ctx.preCondition with
  | none => pure result
  | some pre =>
      pure (LC.obj [("op", LC.str "and"), ("rules", LC.list [pre, result])])

/-!
## Schema mapping registry
-/

/-- Helper for Windows Event Log field names (module-level function
`_windowsEventLogFieldName` in the source). -/
def windowsEventLogFieldName (fieldName : String) : String :=
  if "EventID" = fieldName then "Event/System/EventID"
  else "Event/EventData/" ++ fieldName

/-- The `SigmaLCConfig` namedtuple of the source. -/
structure SigmaLCConfig where
  topLevelParams : List (String × LC)
  preConditions : Option LC
  fieldMappings : FieldMappings
  isAllStringValues : Bool
  isKeywordsSupported : Bool

/-- The `"windows/process_creation/"` registry entry. -/
def winProcCreationConfig : SigmaLCConfig where
  topLevelParams :=
    [("events", LC.list [LC.str "NEW_PROCESS", LC.str "EXISTING_PROCESS"])]
  preConditions := some (LC.obj [("op", LC.str "is windows")])
  fieldMappings := .table [
    ("CommandLine", some "event/COMMAND_LINE"),
    ("Image", some "event/FILE_PATH"),
    ("ParentImage", some "event/PARENT/FILE_PATH"),
    ("ParentCommandLine", some "event/PARENT/COMMAND_LINE"),
    ("User", some "event/USER_NAME"),
    ("OriginalFileName", none),
    ("NewProcessName", some "event/FILE_PATH"),
    ("ProcessCommandLine", some "event/COMMAND_LINE"),
    ("Command", some "event/COMMAND_LINE")]
  isAllStringValues := false
  isKeywordsSupported := false

/-- The `"windows//"` registry entry. -/
def winEventLogConfig : SigmaLCConfig where
  topLevelParams := [("target", LC.str "log"), ("log type", LC.str "wel")]
  preConditions := none
  fieldMappings := .func windowsEventLogFieldName
  isAllStringValues := true
  isKeywordsSupported := false

/-- The `"windows_defender//"` registry entry. -/
def winDefenderConfig : SigmaLCConfig where
  topLevelParams := [("target", LC.str "log"), ("log type", LC.str "wel")]
  preConditions := none
  fieldMappings := .func windowsEventLogFieldName
  isAllStringValues := true
  isKeywordsSupported := false

/-- The `"dns//"` registry entry. -/
def dnsConfig : SigmaLCConfig where
  topLevelParams := [("event", LC.str "DNS_REQUEST")]
  preConditions := none
  fieldMappings := .table [("query", some "event/DOMAIN_NAME")]
  isAllStringValues := false
  isKeywordsSupported := false

/-- The `"linux//"` registry entry. -/
def linuxConfig : SigmaLCConfig where
  topLevelParams :=
    [("events", LC.list [LC.str "NEW_PROCESS", LC.str "EXISTING_PROCESS"])]
  preConditions := some (LC.obj [("op", LC.str "is linux")])
  fieldMappings := .table [
    ("keywords", some "event/COMMAND_LINE"),
    ("exe", some "event/FILE_PATH"),
    ("type", none)]
  isAllStringValues := false
  isKeywordsSupported := true

/-- The `"unix//"` registry entry. -/
def unixConfig : SigmaLCConfig where
  topLevelParams :=
    [("events", LC.list [LC.str "NEW_PROCESS", LC.str "EXISTING_PROCESS"])]
  preConditions := some (LC.obj [("op", LC.str "is linux")])
  fieldMappings := .table [
    ("keywords", some "event/COMMAND_LINE"),
    ("exe", some "event/FILE_PATH"),
    ("type", none)]
  isAllStringValues := false
  isKeywordsSupported := true

/-- The `"netflow//"` registry entry: note `isKeywordsSupported` is true
while the field-mapping table has no `"keywords"` entry. -/
def netflowConfig : SigmaLCConfig where
  topLevelParams := [("event", LC.str "NETWORK_CONNECTIONS")]
  preConditions := none
  fieldMappings := .table [
    ("destination.port", some "event/NETWORK_ACTIVITY/DESTINATION/PORT"),
    ("source.port", some "event/NETWORK_ACTIVITY/SOURCE/PORT")]
  isAllStringValues := false
  isKeywordsSupported := true

/-- The module-level `_allFieldMappings` dict, keyed by
`product/category/service`. -/
def allFieldMappings : List (String × SigmaLCConfig) := [
  ("windows/process_creation/", winProcCreationConfig),
  ("windows//", winEventLogConfig),
  ("windows_defender//", winDefenderConfig),
  ("dns//", dnsConfig),
  ("linux//", linuxConfig),
  ("unix//", unixConfig),
  ("netflow//", netflowConfig)]

/-- The mapping context built from a registry entry (the four values the
source stores on `self` before translating). -/
def ctxOfConfig (cfg : SigmaLCConfig) : Ctx where
  fieldMappings := cfg.fieldMappings
  preCondition := cfg.preConditions
  isAllStringValues := cfg.isAllStringValues
  isKeywordsSupported := cfg.isKeywordsSupported

/-!
## Document assembler (`LimaCharlieBackend.generate`)
-/

/-- The `logsource` mapping of the parsed rule; `none` models an absent
key (the `except KeyError` defaults). -/
structure Logsource where
  product : Option String
  category : Option String
  service : Option String

/-- The parsed rule (`sigmaparser.parsedyaml` together with the parsed
search): the log-source declaration, the required `title`, the five
optional metadata attributes (where `some LC.null` models a key that is
present with a YAML `null` value and `none` models an absent key), and the
root of the parsed condition. -/
structure Rule where
  logsource : Logsource
  title : String
  tags : Option LC
  description : Option LC
  references : Option LC
  level : Option LC
  author : Option LC
  parsedSearch : SigmaNode

/-- The dialect lookup key built by `generate`: category and product
default to `""` when absent, and `service` is hard-coded to `""` (the
source comments out the `ls_rule['service']` extraction and sets
`service = ""` unconditionally). -/
def mappingKey (ls : Logsource) : String :=
  let category := ls.category.getD ""
  let product := ls.product.getD ""
  let service := ""
  product ++ "/" ++ category ++ "/" ++ service

/-- The mutable instance state of a `LimaCharlieBackend` object: the four
per-call attributes `generate` assigns onto `self`. `none` models an
attribute that has not been assigned yet (fresh object). For
`preCondition` the inner `Option` is the attribute's value, which is
itself `None` for dialects without a precondition. -/
structure BackendState where
  fieldMappingInEffect : Option FieldMappings
  preCondition : Option (Option LC)
  isAllStringValues : Option Bool
  isKeywordsSupported : Option Bool

/-- A fresh backend object: no per-call attribute assigned yet. -/
def initState : BackendState where
  fieldMappingInEffect := none
  preCondition := none
  isAllStringValues := none
  isKeywordsSupported := none

/-- One step of the metadata construction,
`respondComponents[0].setdefault("metadata", {})[key] = value`: create the
`"metadata"` dict on first use, then assign into it. -/
def mdSet (resp : List (String × LC)) (k : String) (v : LC) :
    List (String × LC) :=
  if resp.any (fun p => p.1 == "metadata") then
    resp.map (fun p =>
      if p.1 == "metadata" then
        ("metadata", match p.2 with
          | LC.obj kvs => LC.obj (dictSet kvs k v)
          | other => other)
      else p)
  else resp ++ [("metadata", LC.obj [(k, v)])]

/-- The guard `ruleConfig.get(key, None) is not None`: an absent key and a
key whose value is `None` both fail it. -/
def getNonNull : Option LC → Option LC
  | some LC.null => none
  | some v => some v
  | none => none

/-- One guarded metadata copy of `generate`:
`if ruleConfig.get(k, None) is not None: ...setdefault("metadata", {})[k] = ruleConfig[k]`. -/
def addMeta (resp : List (String × LC)) (k : String) (vo : Option LC) :
    List (String × LC) :=
  match getNonNull vo with
  | some v => mdSet resp k v
  | none => resp

/-- The `respond` component built by `generate`: one `report` action named
after the rule title, with the five metadata attributes copied in the
source's fixed order when present and non-`None`. -/
def respondComponents (r : Rule) : LC :=
  let resp := [("action", LC.str "report"), ("name", LC.str r.title)]
  let resp := addMeta resp "tags" r.tags
  let resp := addMeta resp "description" r.description
  let resp := addMeta resp "references" r.references
  let resp := addMeta resp "level" r.level
  let resp := addMeta resp "author" r.author
  LC.list [LC.obj resp]

/-- `LimaCharlieBackend.generate`: build the dialect key, look it up
(raising `UnsupportedLogSource` on a miss, before any attribute is
assigned), store the four context values on `self`, translate the parsed
search (the base-class `super().generate` delegation and its yaml
round-trip are modelled as a direct `generateQuery` call on the rule's
parsed search, per §4.4 of the spec), require a dict result, merge the
top-level parameters into it, and assemble the final
`detect`/`respond` document. Returns the object state after the call
together with the outcome. -/
def generate (s : BackendState) (r : Rule) : BackendState × Except Err LC :=
  let ls := r.logsource
  let category := ls.category.getD ""
  let product := ls.product.getD ""
  match allFieldMappings.lookup (mappingKey ls) with
  | none => (s, throw (UnsupportedLogSource product category ""))
  | some cfg =>
      let s' : BackendState :=
        { fieldMappingInEffect := some cfg.fieldMappings
          preCondition := some cfg.preConditions
          isAllStringValues := some cfg.isAllStringValues
          isKeywordsSupported := some cfg.isKeywordsSupported }
      (s', do
        let detectComponent ← generateQuery (ctxOfConfig cfg) r.parsedSearch
        match detectComponent with
        | LC.obj kvs =>
            pure (LC.obj [
              ("detect", LC.obj (dictUpdate kvs cfg.topLevelParams)),
              ("respond", respondComponents r)])
        | _ => throw MalformedSelection)

/-!
## Concrete contexts and rules used in the theorems below
-/

/-- The active context after selecting `"windows/process_creation/"`. -/
def winProcCtx : Ctx := ctxOfConfig winProcCreationConfig

/-- The active context after selecting `"linux//"`. -/
def linuxCtx : Ctx := ctxOfConfig linuxConfig

/-- The active context after selecting `"netflow//"`. -/
def netflowCtx : Ctx := ctxOfConfig netflowConfig

/-- The spec §8 end-to-end scenario rule: windows process-creation log
source, root `MapItem("Image", "cmd.exe")`, title `"T1"`, no metadata. -/
def winRule : Rule where
  logsource :=
    { product := some "windows", category := some "process_creation",
      service := none }
  title := "T1"
  tags := none
  description := none
  references := none
  level := none
  author := none
  parsedSearch := .mapItem "Image" (.scalar (.str "cmd.exe"))

/-- A log-source declaration carrying a service field: product `windows`,
no category, service `sysmon`. -/
def sysmonLogsource : Logsource where
  product := some "windows"
  category := none
  service := some "sysmon"

/-- A rule whose log source has no registry entry (macos/nope). -/
def noSrcRule : Rule where
  logsource :=
    { product := some "macos", category := some "nope", service := none }
  title := "W"
  tags := none
  description := none
  references := none
  level := none
  author := none
  parsedSearch := .value (.str "x")

/-- A rule whose `tags` key is present but holds a YAML `null` value
(Python `None`), with no other metadata. -/
def nullTagsRule : Rule where
  logsource := { product := none, category := none, service := none }
  title := "T"
  tags := some LC.null
  description := none
  references := none
  level := none
  author := none
  parsedSearch := .value (.str "x")

/-!
## Characterizations used to state claims
-/

/-- Modelled from the spec: §4.4 step 1 extracts product, category and
service from the log-source declaration, absent fields defaulting to the
empty string, and §4.1 makes the lookup key the literal concatenation
product `/` category `/` service.  This is the key exactly as claim C1
states it, for comparison with `mappingKey`. -/
def specMappingKey (ls : Logsource) : String :=
  ls.product.getD "" ++ "/" ++ ls.category.getD "" ++ "/" ++ ls.service.getD ""

/-- Single-pass characterization of the three `re.sub` passes of the
interior-wildcard branch: prefix a backslash to every `"`, `.`, `^`, `$`
and to every backslash not immediately followed by `*` or `?`, translate
every `*` to `.*` and every `?` to `.` (so `\*` becomes `\.*` and `\?`
becomes `\.`). -/
def amendedTranslate : List Char → List Char
  | [] => []
  | ['\\'] => ['\\', '\\']
  | '\\' :: c :: rest =>
      if c = '*' then '\\' :: '.' :: '*' :: amendedTranslate rest
      else if c = '?' then '\\' :: '.' :: amendedTranslate rest
      else '\\' :: '\\' :: amendedTranslate (c :: rest)
  | c :: rest =>
      if c = '*' then '.' :: '*' :: amendedTranslate rest
      else if c = '?' then '.' :: amendedTranslate rest
      else if c = '"' ∨ c = '.' ∨ c = '^' ∨ c = '$' then
        '\\' :: c :: amendedTranslate rest
      else c :: amendedTranslate rest

/-- Modelled from the spec: claim C3 reads §4.3's "escape regex
metacharacters" as escaping all of them.  The regex metacharacters other
than the two translated wildcards `*` and `?`: backslash, dot, caret,
dollar, plus, parentheses, square brackets, curly braces, pipe. -/
def regexMetachars : List Char :=
  ['\\', '.', '^', '$', '+', '(', ')', '[', ']', Char.ofNat 123,
    Char.ofNat 125, '|']

/-- Modelled from the spec: the per-character translation claim C3
demands — escape every regex metacharacter, translate `*` to `.*` and `?`
to `.`. -/
def specTranslateChar (c : Char) : List Char :=
  if c = '*' then ['.', '*']
  else if c = '?' then ['.']
  else if c ∈ regexMetachars then ['\\', c]
  else [c]

/-- Modelled from the spec: claim C3's translation of a whole string. -/
def specTranslate (cs : List Char) : List Char :=
  cs.flatMap specTranslateChar

/-- The fixed two keys every respond component starts with. -/
def baseResp (r : Rule) : List (String × LC) :=
  [("action", LC.str "report"), ("name", LC.str r.title)]

/-- One metadata attribute as a key/value list: empty when the attribute
is absent or `None`-valued, a singleton otherwise. -/
def optEntry (k : String) (vo : Option LC) : List (String × LC) :=
  match getNonNull vo with
  | some v => [(k, v)]
  | none => []

/-- The metadata key/value pairs of a rule, in the fixed source order
tags, description, references, level, author. -/
def metaList (r : Rule) : List (String × LC) :=
  optEntry "tags" r.tags ++ optEntry "description" r.description ++
  optEntry "references" r.references ++ optEntry "level" r.level ++
  optEntry "author" r.author

/-- The metadata block: absent when no attribute survived, else a single
`"metadata"` key holding the attributes. -/
def mdBlock : List (String × LC) → List (String × LC)
  | [] => []
  | l => [("metadata", LC.obj l)]

/-!
## Helper lemmas
-/

/-- Reduction of a successful `Except` bind (do-notation helper). -/
@[simp] theorem except_bind_ok {α β : Type} (a : α) (f : α → Except Err β) :
    (Except.ok a >>= f) = f a := rfl

/-- Reduction of a failed `Except` bind (do-notation helper). -/
@[simp] theorem except_bind_error {α β : Type} (e : Err) (f : α → Except Err β) :
    ((Except.error e : Except Err α) >>= f) = Except.error e := rfl

/-- Reduction of `pure` for the `Except Err` monad. -/
@[simp] theorem except_pure_eq_ok {α : Type} (a : α) :
    (pure a : Except Err α) = Except.ok a := rfl

/-- Reduction of `throw` for the `Except Err` monad. -/
@[simp] theorem except_throw_eq_error {α : Type} (e : Err) :
    (throw e : Except Err α) = Except.error e := rfl

/-- The three sequential `re.sub` passes of the interior-wildcard branch
compute exactly the single-pass translation `amendedTranslate`. -/
theorem wildcardTranslate_eq_amended (cs : List Char) :
    wildcardTranslate cs = amendedTranslate cs := by
  induction cs using amendedTranslate.induct with
  | case1 => rfl
  | case2 => rfl
  | case3 rest ih =>
      show '\\' :: '.' :: '*' :: wildcardTranslate rest =
        '\\' :: '.' :: '*' :: amendedTranslate rest
      rw [ih]
  | case4 rest h ih =>
      show '\\' :: '.' :: wildcardTranslate rest =
        '\\' :: '.' :: amendedTranslate rest
      rw [ih]
  | case5 c rest h1 h2 ih =>
      have he : escWDATP ('\\' :: c :: rest) =
          '\\' :: '\\' :: escWDATP (c :: rest) := by
        simp [escWDATP, h1, h2]
      have ha : amendedTranslate ('\\' :: c :: rest) =
          '\\' :: '\\' :: amendedTranslate (c :: rest) := by
        simp [amendedTranslate, h1, h2]
      simp only [wildcardTranslate] at ih ⊢
      rw [he, ha, ← ih]
      rfl
  | case6 rest h1 h2 ih =>
      show '.' :: '*' :: wildcardTranslate rest =
        '.' :: '*' :: amendedTranslate rest
      rw [ih]
  | case7 rest h1 h2 h3 ih =>
      show '.' :: wildcardTranslate rest = '.' :: amendedTranslate rest
      rw [ih]
  | case8 c rest h1 h2 h3 h4 h5 ih =>
      have hb : ¬c = '\\' := by
        intro hc
        cases rest with
        | nil => exact h1 hc rfl
        | cons d ds => exact h2 d ds hc rfl
      have he : escWDATP (c :: rest) = '\\' :: c :: escWDATP rest := by
        cases rest with
        | nil => simp [escWDATP, hb, h5]
        | cons d ds => simp [escWDATP, hb, h5]
      have ha : amendedTranslate (c :: rest) =
          '\\' :: c :: amendedTranslate rest := by
        cases rest with
        | nil => simp [amendedTranslate, hb, h3, h4, h5]
        | cons d ds => simp [amendedTranslate, hb, h3, h4, h5]
      simp only [wildcardTranslate] at ih ⊢
      rw [he, ha, ← ih]
      have hcq : qChar c = c := by simp [qChar, h4]
      simp [starChar, qChar, h3, h4, hcq]
  | case9 c rest h1 h2 h3 h4 h5 ih =>
      have hb : ¬c = '\\' := by
        intro hc
        cases rest with
        | nil => exact h1 hc rfl
        | cons d ds => exact h2 d ds hc rfl
      have he : escWDATP (c :: rest) = c :: escWDATP rest := by
        cases rest with
        | nil => simp [escWDATP, hb, h5]
        | cons d ds => simp [escWDATP, hb, h5]
      have ha : amendedTranslate (c :: rest) = c :: amendedTranslate rest := by
        cases rest with
        | nil => simp [amendedTranslate, hb, h3, h4, h5]
        | cons d ds => simp [amendedTranslate, hb, h3, h4, h5]
      simp only [wildcardTranslate] at ih ⊢
      rw [he, ha, ← ih]
      simp [starChar, qChar, h3, h4]

/-- Unfolding of an And node given its children's translations. -/
theorem generateANDNode_eq (ctx : Ctx) (cs : List SigmaNode) (gs : List LC)
    (h : generateNodes ctx cs = Except.ok gs) :
    generateANDNode ctx cs = Except.ok (combineAnd gs) := by
  simp [generateANDNode, generateNode, h]

/-- Unfolding of an Or node given its children's translations. -/
theorem generateORNode_eq (ctx : Ctx) (cs : List SigmaNode) (gs : List LC)
    (h : generateNodes ctx cs = Except.ok gs) :
    generateORNode ctx cs = combineOr ctx gs := by
  simp [generateORNode, generateNode, h]

/-!
## Claim C1
-/

/-- Claim C1, counterexample: a log-source declaration with a `service`
field present. The claim's key (built from all three components) would be
`"windows//sysmon"`, but the source ignores the declared service and
builds `"windows//"`. -/
theorem C1_counterexample :
    mappingKey sysmonLogsource = "windows//" ∧
    specMappingKey sysmonLogsource = "windows//sysmon" ∧
    ("windows//" : String) ≠ "windows//sysmon" :=
  ⟨rfl, rfl, by decide⟩

/-- Claim C1, amended: the lookup key is the literal concatenation
`product ++ "/" ++ category ++ "/"` — the service component is always the
empty string regardless of the declaration, product and category default
to the empty string when absent — and a key not present in the fixed table
is a hard failure (`UnsupportedLogSource`). -/
theorem C1_amended (ls : Logsource) :
    mappingKey ls = ls.product.getD "" ++ "/" ++ ls.category.getD "" ++ "/" ∧
    ∀ (s : BackendState) (r : Rule), r.logsource = ls →
      allFieldMappings.lookup (mappingKey ls) = none →
      (generate s r).2 = Except.error
        (UnsupportedLogSource (ls.product.getD "") (ls.category.getD "") "") := by
  constructor
  · simp [mappingKey]
  · intro s r hls hlk
    simp [generate, hls, hlk]

/-- Claim C1, witness: a concrete rule with an unsupported log source
fails with `UnsupportedLogSource`. -/
theorem C1_witness :
    mappingKey noSrcRule.logsource = "macos/nope/" ∧
    (generate initState noSrcRule).2 =
      Except.error (UnsupportedLogSource "macos" "nope" "") := by
  constructor
  · have h := (C1_amended noSrcRule.logsource).1
    rw [h]
    rfl
  · exact (C1_amended noSrcRule.logsource).2 initState noSrcRule rfl (by rfl)

/-!
## Claim C2
-/

/-- Claim C2: the value pattern compiler satisfies the wildcard table
exactly — `abc*` is a prefix match, `*abc` a suffix match, `*abc*` a
substring match, `a*b` a regex match `a.*b`, `abc` an equality match; the
non-string `5` becomes the string `"5"` when `allValuesAreStrings` is set,
and any non-string value passes through unchanged when it is not. -/
theorem C2_theorem :
    valuePatternToLcOp false (LC.str "abc*") = ("starts with", LC.str "abc") ∧
    valuePatternToLcOp false (LC.str "*abc") = ("ends with", LC.str "abc") ∧
    valuePatternToLcOp false (LC.str "*abc*") = ("contains", LC.str "abc") ∧
    valuePatternToLcOp false (LC.str "a*b") = ("matches", LC.str "a.*b") ∧
    valuePatternToLcOp false (LC.str "abc") = ("is", LC.str "abc") ∧
    valuePatternToLcOp true (LC.int 5) = ("is", LC.str "5") ∧
    valuePatternToLcOp false (LC.int 5) = ("is", LC.int 5) ∧
    ∀ v : LC, v.isStr = false → valuePatternToLcOp false v = ("is", v) := by
  refine ⟨rfl, rfl, rfl, rfl, rfl, rfl, rfl, ?_⟩
  intro v hv
  cases v with
  | str s => simp [LC.isStr] at hv
  | null => rfl
  | bool b => rfl
  | int n => rfl
  | list xs => rfl
  | obj kvs => rfl

/-- Claim C2, witness: the general non-string clause at a concrete
non-string value. -/
theorem C2_witness :
    valuePatternToLcOp false (LC.list [LC.int 1]) = ("is", LC.list [LC.int 1]) :=
  C2_theorem.2.2.2.2.2.2.2 (LC.list [LC.int 1]) rfl

/-!
## Claim C3
-/

/-- Claim C3, counterexample: `+` is a regex metacharacter the code does
not escape (its escape class is only `"`, `.`, `^`, `$` and lone
backslashes), so on `a*b+` the compiled pattern `a.*b+` differs from the
fully-escaped pattern `a.*b\+` the claim demands. -/
theorem C3_counterexample :
    valuePatternToLcOp false (LC.str "a*b+") = ("matches", LC.str "a.*b+") ∧
    String.mk (specTranslate "a*b+".toList) = "a.*b\\+" ∧
    ("a.*b+" : String) ≠ "a.*b\\+" :=
  ⟨rfl, rfl, by decide⟩

/-- Claim C3, amended: for every string with an interior `*`, the compiler
escapes exactly `"`, `.`, `^`, `$` and every backslash not immediately
followed by `*` or `?` (not all regex metacharacters), translates every
`*` to `.*` and every `?` to `.`, and returns a `matches` operator with
the translated pattern. -/
theorem C3_amended (b : Bool) (s : String)
    (h : '*' ∈ (s.toList.drop 1).dropLast) :
    valuePatternToLcOp b (LC.str s) =
      ("matches", LC.str (String.mk (amendedTranslate s.toList))) := by
  have hs : valuePatternToLcOpStr s =
      ("matches", String.mk (wildcardTranslate s.toList)) := by
    simp only [valuePatternToLcOpStr]
    rw [if_pos h]
  simp [valuePatternToLcOp, hs, wildcardTranslate_eq_amended]

/-- Claim C3, witness: the amended translation at a concrete
interior-wildcard input. -/
theorem C3_witness :
    ('*' ∈ ("a*b+".toList.drop 1).dropLast) ∧
    valuePatternToLcOp true (LC.str "a*b+") =
      ("matches", LC.str (String.mk (amendedTranslate "a*b+".toList))) :=
  ⟨by decide, C3_amended true "a*b+" (by decide)⟩

/-!
## Claim C4
-/

/-- Claim C4, evaluation at the failing input: an And or Or whose children
all translate to null does yield null (never an empty rules list), but a
null root is NOT elided from the precondition and-wrapper — translating a
windows process-creation rule whose root maps to a dropped field produces
`rules: [precondition, null]` with the null present as a child, contrary
to the claim. -/
theorem C4_evaluation :
    generateANDNode winProcCtx [.mapItem "OriginalFileName" (.scalar (.str "a")),
      .mapItem "OriginalFileName" (.scalar (.str "b"))] = Except.ok LC.null ∧
    generateORNode winProcCtx [.mapItem "OriginalFileName" (.scalar (.str "a")),
      .mapItem "OriginalFileName" (.scalar (.str "b"))] = Except.ok LC.null ∧
    generateQuery winProcCtx (.mapItem "OriginalFileName" (.scalar (.str "x"))) =
      Except.ok (LC.obj [("op", LC.str "and"),
        ("rules", LC.list [LC.obj [("op", LC.str "is windows")], LC.null])]) :=
  ⟨rfl, rfl, rfl⟩

/-!
## Claim C5
-/

/-- Claim C5: when the first surviving translated child of an Or node is a
raw string, every surviving child is compiled through the value pattern
compiler and rewrapped as an op/path/value node against the mapping's
`"keywords"` field, with an `or` wrapper when more than one remains; and
when the active context has `isKeywordsSupported = false` this case raises
`UnsupportedKeywordSearch` instead. -/
theorem C5_theorem (ctx : Ctx) (cs : List SigmaNode) (gs frest : List LC)
    (f0 : LC) (K : String)
    (hgen : generateNodes ctx cs = Except.ok gs)
    (hfil : dropNone gs = f0 :: frest)
    (hstr : f0.isStr = true) :
    (ctx.isKeywordsSupported = true →
      keywordFieldPath ctx.fieldMappings = Except.ok (LC.str K) →
      generateORNode ctx cs = Except.ok
        (match (f0 :: frest).map (fun k =>
            let p := valuePatternToLcOp ctx.isAllStringValues k
            LC.obj [("op", LC.str p.1), ("path", LC.str K), ("value", p.2)]) with
          | [g] => g
          | gs2 => LC.obj [("op", LC.str "or"), ("rules", LC.list gs2)])) ∧
    (ctx.isKeywordsSupported = false →
      generateORNode ctx cs = Except.error UnsupportedKeywordSearch) := by
  rw [generateORNode_eq ctx cs gs hgen]
  constructor
  · intro hkw hpath
    simp only [combineOr, hfil, hstr, hkw, hpath, if_true, Bool.not_true,
      Bool.false_eq_true, if_false, except_bind_ok, except_pure_eq_ok]
    cases frest <;> rfl
  · intro hkw
    simp only [combineOr, hfil, hstr, hkw, if_true, Bool.not_false,
      if_true, except_bind_error, except_throw_eq_error]

/-- Claim C5, witness: the spec's two-leaf keyword example under the linux
context (supported) and the windows process-creation context
(unsupported). -/
theorem C5_witness :
    generateORNode linuxCtx [.value (.str "foo*"), .value (.str "*bar")] =
      Except.ok (LC.obj [("op", LC.str "or"), ("rules", LC.list [
        LC.obj [("op", LC.str "starts with"), ("path", LC.str "event/COMMAND_LINE"),
          ("value", LC.str "foo")],
        LC.obj [("op", LC.str "ends with"), ("path", LC.str "event/COMMAND_LINE"),
          ("value", LC.str "bar")]])]) ∧
    generateORNode winProcCtx [.value (.str "foo*"), .value (.str "*bar")] =
      Except.error UnsupportedKeywordSearch := by
  constructor
  · exact (C5_theorem linuxCtx [.value (.str "foo*"), .value (.str "*bar")]
      [LC.str "foo*", LC.str "*bar"] [LC.str "*bar"] (LC.str "foo*")
      "event/COMMAND_LINE" rfl rfl rfl).1 rfl rfl
  · exact (C5_theorem winProcCtx [.value (.str "foo*"), .value (.str "*bar")]
      [LC.str "foo*", LC.str "*bar"] [LC.str "*bar"] (LC.str "foo*")
      "" rfl rfl rfl).2 rfl

/-!
## Claim C6
-/

/-- Claim C6, counterexample: a single-child Or whose child is a bare
string leaf translates through the keyword fallback, so it does NOT equal
the child's own translation (which is the raw string). -/
theorem C6_counterexample :
    generateORNode linuxCtx [SigmaNode.value (.str "abc")] ≠
      generateNode linuxCtx (SigmaNode.value (.str "abc")) := by
  intro h
  rw [show generateORNode linuxCtx [SigmaNode.value (.str "abc")] =
      Except.ok (LC.obj [("op", LC.str "is"),
        ("path", LC.str "event/COMMAND_LINE"), ("value", LC.str "abc")]) from rfl,
    show generateNode linuxCtx (SigmaNode.value (.str "abc")) =
      Except.ok (LC.str "abc") from rfl] at h
  injection h with h2
  cases h2

/-- Claim C6, amended: null child translations are dropped, an all-dropped
And/Or returns null, survivors are wrapped preserving order, and a node
with exactly one surviving child returns that child unwrapped — so a
single-child And always equals the child's translation, and a single-child
Or does whenever the child's translation is not a raw string (a raw-string
first survivor instead triggers the keyword fallback of C5). -/
theorem C6_amended (ctx : Ctx) (cs : List SigmaNode) (gs : List LC)
    (hgen : generateNodes ctx cs = Except.ok gs) :
    (generateANDNode ctx cs = Except.ok (match dropNone gs with
      | [] => LC.null
      | [g] => g
      | fs => LC.obj [("op", LC.str "and"), ("rules", LC.list fs)])) ∧
    ((∀ g, (dropNone gs).head? = some g → g.isStr = false) →
      generateORNode ctx cs = Except.ok (match dropNone gs with
      | [] => LC.null
      | [g] => g
      | fs => LC.obj [("op", LC.str "or"), ("rules", LC.list fs)])) ∧
    (∀ (n : SigmaNode) (g : LC), generateNode ctx n = Except.ok g →
      generateANDNode ctx [n] = Except.ok g) ∧
    (∀ (n : SigmaNode) (g : LC), generateNode ctx n = Except.ok g →
      g.isStr = false → generateORNode ctx [n] = Except.ok g) := by
  refine ⟨?_, ?_, ?_, ?_⟩
  · rw [generateANDNode_eq ctx cs gs hgen]
    simp only [combineAnd]
  · intro hhead
    rw [generateORNode_eq ctx cs gs hgen]
    cases hfil : dropNone gs with
    | nil => simp [combineOr, hfil]
    | cons f0 frest =>
        have hf0 : f0.isStr = false := hhead f0 (by rw [hfil]; rfl)
        cases frest with
        | nil => simp [combineOr, hfil, hf0]
        | cons f1 fr => simp [combineOr, hfil, hf0]
  · intro n g hn
    have hgs : generateNodes ctx [n] = Except.ok [g] := by
      simp [generateNodes, hn]
    rw [generateANDNode_eq ctx [n] [g] hgs]
    cases g <;> simp [combineAnd, dropNone, LC.isNull]
  · intro n g hn hstr
    have hgs : generateNodes ctx [n] = Except.ok [g] := by
      simp [generateNodes, hn]
    rw [generateORNode_eq ctx [n] [g] hgs]
    cases g <;> simp_all [combineOr, dropNone, LC.isNull, LC.isStr]

/-- Claim C6, witness: concrete drop/collapse behavior under the linux
context — a dropped `type` field is elided, the surviving single child is
returned unwrapped by both And and Or, and single-child And/Or of a
structured child equal the child's translation. -/
theorem C6_witness :
    generateANDNode linuxCtx [.mapItem "type" (.scalar (.str "x")),
      .mapItem "exe" (.scalar (.str "a"))] =
      Except.ok (LC.obj [("op", LC.str "is"), ("path", LC.str "event/FILE_PATH"),
        ("value", LC.str "a"), ("case sensitive", LC.bool false)]) ∧
    generateORNode linuxCtx [.mapItem "type" (.scalar (.str "x")),
      .mapItem "exe" (.scalar (.str "a"))] =
      Except.ok (LC.obj [("op", LC.str "is"), ("path", LC.str "event/FILE_PATH"),
        ("value", LC.str "a"), ("case sensitive", LC.bool false)]) ∧
    generateANDNode linuxCtx [.mapItem "exe" (.scalar (.str "a"))] =
      Except.ok (LC.obj [("op", LC.str "is"), ("path", LC.str "event/FILE_PATH"),
        ("value", LC.str "a"), ("case sensitive", LC.bool false)]) ∧
    generateORNode linuxCtx [.mapItem "exe" (.scalar (.str "a"))] =
      Except.ok (LC.obj [("op", LC.str "is"), ("path", LC.str "event/FILE_PATH"),
        ("value", LC.str "a"), ("case sensitive", LC.bool false)]) := by
  refine ⟨?_, ?_, ?_, ?_⟩
  · exact (C6_amended linuxCtx [.mapItem "type" (.scalar (.str "x")),
      .mapItem "exe" (.scalar (.str "a"))]
      [LC.null, LC.obj [("op", LC.str "is"), ("path", LC.str "event/FILE_PATH"),
        ("value", LC.str "a"), ("case sensitive", LC.bool false)]] rfl).1
  · exact (C6_amended linuxCtx [.mapItem "type" (.scalar (.str "x")),
      .mapItem "exe" (.scalar (.str "a"))]
      [LC.null, LC.obj [("op", LC.str "is"), ("path", LC.str "event/FILE_PATH"),
        ("value", LC.str "a"), ("case sensitive", LC.bool false)]] rfl).2.1
      (fun g hg => by cases hg; rfl)
  · exact (C6_amended linuxCtx [] [] rfl).2.2.1
      (.mapItem "exe" (.scalar (.str "a"))) _ rfl
  · exact (C6_amended linuxCtx [] [] rfl).2.2.2
      (.mapItem "exe" (.scalar (.str "a"))) _ rfl rfl

/-!
## Claim C7
-/

/-- Claim C7: translating Not(child) returns null when the child
translates to null, returns the structured node with `not: true` set when
the child translates to a dict, and is a hard failure
(`UnsupportedNegation`) when the child translates to a raw non-dict
value. -/
theorem C7_theorem (ctx : Ctx) (item : SigmaNode) (g : LC)
    (h : generateNode ctx item = Except.ok g) :
    (g = LC.null → generateNOTNode ctx item = Except.ok LC.null) ∧
    (∀ kvs, g = LC.obj kvs → generateNOTNode ctx item =
      Except.ok (LC.obj (dictSet kvs "not" (LC.bool true)))) ∧
    (g.isNull = false → g.isObj = false →
      generateNOTNode ctx item = Except.error UnsupportedNegation) := by
  refine ⟨?_, ?_, ?_⟩
  · intro hg
    subst hg
    simp [generateNOTNode, generateNode, h]
  · intro kvs hg
    subst hg
    simp [generateNOTNode, generateNode, h]
  · intro h1 h2
    cases g <;> simp_all [generateNOTNode, generateNode, h, LC.isNull, LC.isObj]

/-- Claim C7, witness: null child, dict child, and raw-string child under
the linux context. -/
theorem C7_witness :
    generateNOTNode linuxCtx (.mapItem "type" (.scalar (.str "x"))) =
      Except.ok LC.null ∧
    generateNOTNode linuxCtx (.mapItem "exe" (.scalar (.str "a"))) =
      Except.ok (LC.obj [("op", LC.str "is"), ("path", LC.str "event/FILE_PATH"),
        ("value", LC.str "a"), ("case sensitive", LC.bool false),
        ("not", LC.bool true)]) ∧
    generateNOTNode linuxCtx (.value (.str "abc")) =
      Except.error UnsupportedNegation := by
  refine ⟨?_, ?_, ?_⟩
  · exact (C7_theorem linuxCtx (.mapItem "type" (.scalar (.str "x")))
      LC.null rfl).1 rfl
  · exact (C7_theorem linuxCtx (.mapItem "exe" (.scalar (.str "a")))
      (LC.obj [("op", LC.str "is"), ("path", LC.str "event/FILE_PATH"),
        ("value", LC.str "a"), ("case sensitive", LC.bool false)]) rfl).2.1 _ rfl
  · exact (C7_theorem linuxCtx (.value (.str "abc"))
      (LC.str "abc") rfl).2.2 rfl rfl

/-!
## Claim C8
-/

/-- Claim C8, counterexample: a rule whose `tags` key is present with a
YAML `null` value gets no metadata object at all — the source's guard is
`.get(k, None) is not None`, not key presence, so the claim's
presence-iff fails. -/
theorem C8_counterexample :
    nullTagsRule.tags ≠ none ∧
    respondComponents nullTagsRule =
      LC.list [LC.obj [("action", LC.str "report"), ("name", LC.str "T")]] := by
  constructor
  · intro h
    cases h
  · rfl

/-- Claim C8, amended: the metadata object is present exactly when at
least one of tags, description, references, level, author is present with
a non-`None` value; each such attribute is copied verbatim, in the fixed
relative order tags, description, references, level, author, with no
extra keys. -/
theorem C8_amended (r : Rule) :
    respondComponents r =
      LC.list [LC.obj (baseResp r ++ mdBlock (metaList r))] := by
  obtain ⟨ls, ti, tg, de, rf, lv, au, ps⟩ := r
  simp only [respondComponents, addMeta, metaList, optEntry, baseResp, mdBlock]
  cases htg : getNonNull tg <;> cases hd : getNonNull de <;>
    cases hrf : getNonNull rf <;> cases hlv : getNonNull lv <;>
    cases hau : getNonNull au <;>
    simp only [htg, hd, hrf, hlv, hau] <;> rfl

/-!
## Claim C9
-/

/-- Claim C9, counterexample: after a successful `generate` call the
mapping context is still stored on the object — the four `self._*`
attributes are assigned and never cleared — so it IS retained in mutable
instance state rather than discarded when the call ends. -/
theorem C9_counterexample :
    (generate initState winRule).1.isAllStringValues = some false ∧
    (generate initState winRule).1.isKeywordsSupported = some false ∧
    initState.isAllStringValues = none ∧
    (generate initState winRule).1 ≠ initState := by
  refine ⟨rfl, rfl, rfl, ?_⟩
  intro h
  have h2 := congrArg BackendState.isAllStringValues h
  rw [show (generate initState winRule).1.isAllStringValues = some false from rfl] at h2
  rw [show initState.isAllStringValues = (none : Option Bool) from rfl] at h2
  cases h2

/-- Claim C9, amended: although the context is retained in instance state,
the outcome of a `generate` call does not depend on the instance state
left behind by earlier calls (every attribute the translation reads is
overwritten before use), so a retained context never influences a later
call's result. -/
theorem C9_amended (s1 s2 : BackendState) (r : Rule) :
    (generate s1 r).2 = (generate s2 r).2 := by
  cases h : allFieldMappings.lookup (mappingKey r.logsource) <;>
    simp [generate, h]

/-!
## Claim C10
-/

/-- Claim C10: the netflow registry entry declares `isKeywordsSupported`
while its field-mapping table has no `"keywords"` entry, and the Or-node
keyword fallback indexes the table with the literal key `"keywords"`
without a guard, so an Or of bare string leaves under the netflow dialect
fails with the raw `KeyError` of the unguarded subscript — a different
failure from the backend's designated `NotImplementedError`s. -/
theorem C10_theorem :
    allFieldMappings.lookup "netflow//" = some netflowConfig ∧
    netflowConfig.isKeywordsSupported = true ∧
    keywordFieldPath netflowConfig.fieldMappings =
      Except.error (Err.keyError "keywords") ∧
    generateORNode netflowCtx [.value (.str "a"), .value (.str "b")] =
      Except.error (Err.keyError "keywords") ∧
    Err.keyError "keywords" ≠
      Err.notImplemented "Full-text keyboard searches not supported." := by
  refine ⟨rfl, rfl, rfl, rfl, ?_⟩
  intro h
  cases h

end LimaCharlie
